import Mathlib

/-!
Shallow embedding of the live voice pipeline of the `client-twitter`
repository (bundled source: `src/src/redisHelper.ts`), covering:

* `SttTtsPlugin` (section `src/plugins/SttTtsSpacesPlugin.ts` of the bundle):
  `onAudioData`, `processAudio`, `speakText`, `processTtsQueue`,
  `convertPcmToWavInMemory`, `streamToJanus`;
* `TwitterSpaceClient` (section `src/spaces.ts` of the bundle):
  `manageCurrentSpace`, `acceptSpeakersFromQueueIfNeeded`,
  `handleSpeakerRequest`, `acceptSpeaker`, `kickExtraSpeakers`, `stopSpace`.

Conventions of the embedding:

* JS `Map`s are association lists `List (String × α)` with the helper
  operations `lookupD` / `setA` below; `Map.clear()` is `[]`.
* 16-bit PCM samples are `Int` (JS numbers holding integral values);
  normalized amplitudes and JS float divisions are `ℚ` (exact arithmetic).
* External collaborators (transcription, dialogue generation, TTS
  synthesis, the scraper's room report, speaker approval) are parameters;
  a collaborator that can reject is an `Except String _` value or a
  boolean success oracle.
* `async`/`await` interleavings are folded into the cooperative
  single-threaded semantics the code relies on: an abort of the TTS
  cancellation token can only have been performed by the barge-in branch
  of `onAudioData`, which also clears `isSpeaking`; this is reflected in
  the `JobOutcome` oracle of the playback loop.
-/

namespace ClientTwitter

/-! ## Association-list helpers standing for JS `Map` -/

/-- JS `m.get(k)` with default `d` (`undefined` handled at call sites). -/
def lookupD {α : Type} (m : List (String × α)) (k : String) (d : α) : α :=
  match m.find? (fun p => p.1 == k) with
  | some p => p.2
  | none => d

/-- JS `m.set(k, v)`: replace the binding when present, else append it. -/
def setA {α : Type} (m : List (String × α)) (k : String) (v : α) : List (String × α) :=
  if m.any (fun p => p.1 == k) then
    m.map (fun p => if p.1 == k then (k, v) else p)
  else
    m ++ [(k, v)]

/-! ## Constants (`src/plugins/SttTtsSpacesPlugin.ts`) -/

def VOLUME_WINDOW_SIZE : Nat := 100

def SPEAKING_THRESHOLD : ℚ := 5 / 100

def SILENCE_DETECTION_THRESHOLD_MS : Nat := 1000

/-! ## Plugin state -/

/-- One transport callback payload: `{ userId, samples }`. -/
structure AudioFrame where
  userId : String
  samples : List Int

/-- The mutable fields of `SttTtsPlugin` that the pipeline logic touches.
`userSpeakingTimer` models the single pending `setTimeout` handle as the
user it will flush (`none` = no pending timer).  `ttsAbortController`
models the current `AbortController` as `some aborted?` (`none` = no
controller installed). -/
structure SttState where
  silenceThreshold : Int
  pcmBuffers : List (String × List (List Int))
  ttsQueue : List String
  isSpeaking : Bool
  isProcessingAudio : Bool
  userSpeakingTimer : Option String
  volumeBuffers : List (String × List ℚ)
  ttsAbortController : Option Bool

/-- The running peak of `onAudioData`: start at 0, take the larger of the
accumulator and the absolute sample value, over the whole frame. -/
def maxAbsSample (samples : List Int) : Int :=
  samples.foldl (fun m v => max m |v|) 0

/-- Rolling average `volumeBuffer.reduce((sum, v) => sum + v, 0) / VOLUME_WINDOW_SIZE`
(lines 3329): note the divisor is the fixed window capacity, not the
current window length. -/
def avgVolume (volumeBuffer : List ℚ) : ℚ :=
  volumeBuffer.sum / (VOLUME_WINDOW_SIZE : ℚ)

/-- Source `SttTtsPlugin.onAudioData` (lines 3278-3339).  The barge-in branch
reinterprets the frame as `new Int16Array(buffer, byteOffset, length / 2)`,
i.e. the first `⌊length / 2⌋` samples; `Math.max(...)/32768` over that
view is modelled by `maxAbsSample` (the JS `Math.max()` of an empty
spread is `-Infinity`; the model uses `0` there, and no theorem below
depends on the value for frames shorter than two samples). -/
def onAudioData (d : AudioFrame) (s : SttState) : SttState :=
  if s.isProcessingAudio then s
  else
    let maxVal := maxAbsSample d.samples
    if maxVal < s.silenceThreshold then s
    else
      -- clearTimeout(this.userSpeakingTimer)
      let s1 : SttState := { s with userSpeakingTimer := none }
      let arr := lookupD s1.pcmBuffers d.userId []
      let s2 : SttState :=
        { s1 with pcmBuffers := setA s1.pcmBuffers d.userId (arr ++ [d.samples]) }
      if !s2.isSpeaking then
        -- setTimeout(..., SILENCE_DETECTION_THRESHOLD_MS)
        { s2 with userSpeakingTimer := some d.userId }
      else
        let volumeBuffer := lookupD s2.volumeBuffers d.userId []
        let half := d.samples.take (d.samples.length / 2)
        let maxAmplitude : ℚ := (maxAbsSample half : ℚ) / 32768
        let vb1 := volumeBuffer ++ [maxAmplitude]
        let vb2 := if vb1.length > VOLUME_WINDOW_SIZE then vb1.tail else vb1
        let s3 : SttState := { s2 with volumeBuffers := setA s2.volumeBuffers d.userId vb2 }
        if avgVolume vb2 > SPEAKING_THRESHOLD then
          -- volumeBuffer.length = 0
          let s4 : SttState := { s3 with volumeBuffers := setA s3.volumeBuffers d.userId [] }
          match s4.ttsAbortController with
          | some _ => { s4 with ttsAbortController := some true, isSpeaking := false }
          | none => s4
        else s3

/-! ## Canonical WAV container (`convertPcmToWavInMemory`, lines 3341-3371)

`DataView` writes at consecutive, non-overlapping offsets 0..43 followed by
the sample data are modelled as concatenation in offset order.  A byte is a
`Nat` (the stored octet value); `setUint16`/`setUint32` truncate modulo
2^16 / 2^32, which the little-endian byte extraction below performs
implicitly; `setInt16` stores the two's-complement residue modulo 2^16. -/

/-- Source `writeString(view, offset, text)`: one byte per character (`charCodeAt`). -/
def writeStringBytes (text : String) : List Nat :=
  text.toList.map (fun ch => ch.toNat)

/-- A `view.setUint16(off, n, true)` write as its two stored bytes. -/
def encodeUInt16LE (n : Nat) : List Nat :=
  [n % 256, n / 256 % 256]

/-- A `view.setUint32(off, n, true)` write as its four stored bytes. -/
def encodeUInt32LE (n : Nat) : List Nat :=
  [n % 256, n / 256 % 256, n / 65536 % 256, n / 16777216 % 256]

/-- A `view.setInt16(off, v, true)` write as its two stored bytes (two's complement). -/
def encodeInt16LE (v : Int) : List Nat :=
  let u := (v % 65536).toNat
  [u % 256, u / 256]

/-- Source `SttTtsPlugin.convertPcmToWavInMemory(pcmData, sampleRate)`. -/
def convertPcmToWavInMemory (pcmData : List Int) (sampleRate : Nat) : List Nat :=
  let numChannels := 1
  let byteRate := sampleRate * numChannels * 2
  let blockAlign := numChannels * 2
  let dataSize := pcmData.length * 2
  writeStringBytes "RIFF"
    ++ encodeUInt32LE (36 + dataSize)
    ++ writeStringBytes "WAVE"
    ++ writeStringBytes "fmt "
    ++ encodeUInt32LE 16
    ++ encodeUInt16LE 1
    ++ encodeUInt16LE numChannels
    ++ encodeUInt32LE sampleRate
    ++ encodeUInt32LE byteRate
    ++ encodeUInt16LE blockAlign
    ++ encodeUInt16LE 16
    ++ writeStringBytes "data"
    ++ encodeUInt32LE dataSize
    ++ pcmData.flatMap encodeInt16LE

/-! Decoder for the canonical container (the spec side of the round-trip:
"decoding its header yields ..."). -/

/-- The byte at index `i` of a byte sequence. -/
def byteAt (bytes : List Nat) (i : Nat) : Nat :=
  bytes.getD i 0

/-- Little-endian 16-bit unsigned read at `off`. -/
def readUInt16LE (bytes : List Nat) (off : Nat) : Nat :=
  byteAt bytes off + 256 * byteAt bytes (off + 1)

/-- Little-endian 32-bit unsigned read at `off`. -/
def readUInt32LE (bytes : List Nat) (off : Nat) : Nat :=
  byteAt bytes off + 256 * byteAt bytes (off + 1)
    + 65536 * byteAt bytes (off + 2) + 16777216 * byteAt bytes (off + 3)

/-- Little-endian 16-bit two's-complement signed read at `off`. -/
def readInt16LE (bytes : List Nat) (off : Nat) : Int :=
  let u := readUInt16LE bytes off
  if u < 32768 then (u : Int) else (u : Int) - 65536

/-! ## Real-time frame streamer (`streamToJanus`, lines 3729-3742) -/

/-- The `for (let offset = 0; offset + FRAME_SIZE <= samples.length; offset += FRAME_SIZE)`
loop of `streamToJanus`, returning the frames pushed to
`janus.pushLocalAudio` in order.  `ab k` is the value of
`ttsAbortController.signal.aborted` observed at the `k`-th check (the
check precedes every push).  The conjunct `0 < FRAME_SIZE` in the guard
is a modelling guard: the source loop does not terminate when
`FRAME_SIZE = 0` (sample rate below 100); all theorems below assume
`100 ≤ sampleRate`. -/
def streamLoop (samples : List Int) (FRAME_SIZE : Nat) (ab : Nat → Bool)
    (offset k : Nat) : List (List Int) :=
  if h : 0 < FRAME_SIZE ∧ offset + FRAME_SIZE ≤ samples.length then
    if ab k then []
    else
      ((samples.drop offset).take FRAME_SIZE)
        :: streamLoop samples FRAME_SIZE ab (offset + FRAME_SIZE) (k + 1)
  else []
termination_by samples.length - offset
decreasing_by omega

/-- Source `SttTtsPlugin.streamToJanus(samples, sampleRate)`:
`FRAME_SIZE = Math.floor(sampleRate * 0.01)` (= `sampleRate / 100` in exact
arithmetic), then the push loop. -/
def streamToJanus (samples : List Int) (sampleRate : Nat) (ab : Nat → Bool) :
    List (List Int) :=
  let FRAME_SIZE := sampleRate / 100
  streamLoop samples FRAME_SIZE ab 0 0

/-! ## TTS queue (`speakText` / `processTtsQueue`, lines 3442-3486)

The awaited collaborator work of one dequeued job (`elevenLabsTts`,
`convertMp3ToPcm`, `streamToJanus`) is summarised by a `JobOutcome`
oracle keyed by the job's text:

* `ok`: all calls succeed and the abort signal is never raised;
* `err`: some call throws (caught at lines 3479-3480, loop continues);
* `abortBefore`: the barge-in branch of `onAudioData` aborted the
  controller during synthesis, observed at the check before streaming
  (line 3466) — the loop returns;
* `abortAfter`: the abort happened during streaming, observed at the
  check after streaming (line 3473) — the loop returns.

In the two abort outcomes the interleaved barge-in branch has already set
`isSpeaking := false` (line 3334), which the oracle transition reflects. -/

inductive JobOutcome
  | ok
  | err
  | abortBefore
  | abortAfter
deriving DecidableEq

/-- The `while (this.ttsQueue.length > 0)` loop of `processTtsQueue`,
run on the queue `queue` (kept in sync with `s.ttsQueue`).  Returns the
final state and the trace of dequeued texts in dequeue order. -/
def ttsLoop (o : String → JobOutcome) :
    List String → SttState → SttState × List String
  | [], s => ({ s with isSpeaking := false }, [])
  | t :: rest, s =>
    -- const text = this.ttsQueue.shift()
    let s1 : SttState := { s with ttsQueue := rest }
    if t = "" then
      -- if (!text) continue
      let r := ttsLoop o rest s1
      (r.1, t :: r.2)
    else
      -- this.ttsAbortController = new AbortController()
      let s2 : SttState := { s1 with ttsAbortController := some false }
      match o t with
      | .ok | .err =>
        -- finally { this.ttsAbortController = null }, then next iteration
        let r := ttsLoop o rest { s2 with ttsAbortController := none }
        (r.1, t :: r.2)
      | .abortBefore | .abortAfter =>
        -- barge-in set isSpeaking := false and aborted the signal;
        -- the loop observes it and returns (finally clears the controller)
        ({ s2 with ttsAbortController := none, isSpeaking := false }, [t])

/-- Source `SttTtsPlugin.processTtsQueue` (state part). -/
def processTtsQueue (o : String → JobOutcome) (s : SttState) : SttState :=
  (ttsLoop o s.ttsQueue s).1

/-- The dequeue trace of one `processTtsQueue` run. -/
def processTtsTrace (o : String → JobOutcome) (s : SttState) : List String :=
  (ttsLoop o s.ttsQueue s).2

/-- Source `SttTtsPlugin.speakText(text)` (lines 3442-3453): enqueue, and when
not already speaking, set the flag and run the playback loop (whose
rejection is only logged). -/
def speakText (o : String → JobOutcome) (text : String) (s : SttState) : SttState :=
  let s1 : SttState := { s with ttsQueue := s.ttsQueue ++ [text] }
  if !s1.isSpeaking then
    processTtsQueue o { s1 with isSpeaking := true }
  else s1

/-! ## Turn processor (`processAudio`, lines 3375-3438) -/

/-- The external collaborators of one turn.  `transcribe` receives the
canonical WAV container bytes; `handleUserMessage` covers the
classification + generation work of `SttTtsPlugin.handleUserMessage`
(which mutates none of the pipeline state fields); `jobOutcome` drives
the playback loop started by `speakText`.  An `Except.error` is a thrown
exception. -/
structure Collab where
  transcribe : List Nat → Except String String
  handleUserMessage : String → String → Except String String
  jobOutcome : String → JobOutcome

/-- The `try` block of `processAudio` (lines 3380-3432), entered with the
busy flag already set.  Returns the state as mutated so far and
`some e` when a collaborator threw `e` (to be caught by the handler). -/
def processAudioBody (c : Collab) (userId : String) (s : SttState) :
    SttState × Option String :=
  let chunks := lookupD s.pcmBuffers userId []
  -- this.pcmBuffers.clear()
  let s1 : SttState := { s with pcmBuffers := [] }
  if chunks.isEmpty then (s1, none)
  else
    let totalMerged := chunks.flatten
    let wavBuffer := convertPcmToWavInMemory totalMerged 48000
    match c.transcribe wavBuffer with
    | .error e => (s1, some e)
    | .ok sttText =>
      if sttText.trim.isEmpty then (s1, none)
      else
        match c.handleUserMessage sttText userId with
        | .error e => (s1, some e)
        | .ok replyText =>
          if replyText.trim.isEmpty then (s1, none)
          else
            let s2 : SttState :=
              { s1 with isProcessingAudio := false, volumeBuffers := [] }
            (speakText c.jobOutcome replyText s2, none)

/-- Source `SttTtsPlugin.processAudio(userId)`: the busy-flag guard, the `try`
body, the `catch` (logs only) and the `finally` releasing the flag.  The
result is a plain state — a thrown collaborator error never escapes. -/
def processAudio (c : Collab) (userId : String) (s : SttState) : SttState :=
  if s.isProcessingAudio then s
  else
    let s1 : SttState := { s with isProcessingAudio := true }
    let r := processAudioBody c userId s1
    { r.1 with isProcessingAudio := false }

/-! ## Space session manager (`TwitterSpaceClient`, section `src/spaces.ts`)

The scraper's room report (`getAudioSpaceById(...).participants`) and the
transport approval call (`currentSpace.approveSpeaker`, which can reject
and is caught at lines 4149-4154) are parameters of each operation.
`removeSpeaker` catches its own transport errors (lines 4156-4167), so an
eviction always updates the manager's bookkeeping. -/

/-- A pending `SpeakerRequest` event payload. -/
structure SpeakerRequest where
  userId : String
  sessionUUID : String
  username : String
deriving DecidableEq

/-- One entry of `this.activeSpeakers`. -/
structure SpeakerInfo where
  userId : String
  sessionUUID : String
  username : String
  startTime : Nat
deriving DecidableEq

/-- One entry of the room report's `participants.speakers` list. -/
structure RoomSpeaker where
  user_id : String
deriving DecidableEq

/-- The `participants` field of the scraper's room report (listeners only as a count). -/
structure RoomReport where
  speakers : List RoomSpeaker
  listeners : Nat

/-- The fields of `this.decisionOptions` the managed tick reads. -/
structure SpaceDecisionOptions where
  maxSpeakers : Option Nat
  speakerMaxDurationMs : Option Nat
  typicalDurationMinutes : Option Nat

/-- The mutable fields of `TwitterSpaceClient` the admission logic touches.
`currentSpace` is the presence of the `Space` object. -/
structure SpaceState where
  spaceId : Option String
  currentSpace : Bool
  isSpaceRunning : Bool
  startedAt : Option Nat
  lastSpaceEndedAt : Option Nat
  activeSpeakers : List SpeakerInfo
  speakerQueue : List SpeakerRequest

/-- Source `TwitterSpaceClient.acceptSpeaker(req)` (lines 4138-4155): approve with
the transport; on success push a `SpeakerSession` with `startTime = now`;
an approval rejection is caught and leaves the state unchanged. -/
def acceptSpeaker (approveOk : String → Bool) (now : Nat) (req : SpeakerRequest)
    (s : SpaceState) : SpaceState :=
  if !s.currentSpace then s
  else if approveOk req.userId then
    let entry : SpeakerInfo :=
      { userId := req.userId, sessionUUID := req.sessionUUID,
        username := req.username, startTime := now }
    { s with activeSpeakers := s.activeSpeakers ++ [entry] }
  else s

/-- The `while (queue.length > 0 && active.length < ms)` loop of
`acceptSpeakersFromQueueIfNeeded` (lines 4104-4117), with the queue list
kept in sync with `s.speakerQueue`. -/
def acceptQueueGo (ms : Nat) (approveOk : String → Bool) (now : Nat) :
    List SpeakerRequest → SpaceState → SpaceState
  | [], s => s
  | req :: rest, s =>
    if s.activeSpeakers.length < ms then
      let s1 := acceptSpeaker approveOk now req { s with speakerQueue := rest }
      acceptQueueGo ms approveOk now rest s1
    else s

/-- Source `TwitterSpaceClient.acceptSpeakersFromQueueIfNeeded()`. -/
def acceptSpeakersFromQueueIfNeeded (opts : SpaceDecisionOptions)
    (approveOk : String → Bool) (now : Nat) (s : SpaceState) : SpaceState :=
  acceptQueueGo (opts.maxSpeakers.getD 1) approveOk now s.speakerQueue s

/-- Source `TwitterSpaceClient.kickExtraSpeakers(speakers)` (lines 4172-4188):
`extras = speakers.slice(ms)` — the room-reported entries at positions
`≥ ms` — are removed from the room, and for each one the first matching
entry of `this.activeSpeakers` (`findIndex` + `splice`) is dropped. -/
def kickExtraSpeakers (opts : SpaceDecisionOptions) (speakers : List RoomSpeaker)
    (s : SpaceState) : SpaceState :=
  if !s.currentSpace then s
  else
    let ms := opts.maxSpeakers.getD 1
    let extras := speakers.drop ms
    let remaining :=
      extras.foldl (fun acc sp => acc.eraseP (fun x => x.userId == sp.user_id))
        s.activeSpeakers
    { s with activeSpeakers := remaining }

/-- Source `TwitterSpaceClient.stopSpace()` (lines 4189-4204): the transport stop
may reject (caught); the `finally` block clears the session state and
records `lastSpaceEndedAt`. -/
def stopSpace (now : Nat) (s : SpaceState) : SpaceState :=
  if !s.currentSpace || !s.isSpaceRunning then s
  else
    { s with isSpaceRunning := false, spaceId := none, currentSpace := false,
             startedAt := none, lastSpaceEndedAt := some now,
             activeSpeakers := [], speakerQueue := [] }

/-- Source `TwitterSpaceClient.manageCurrentSpace()` (lines 4049-4100), one tick:
duration-cap eviction (the reverse-index `splice` loop is a filter),
queue admission, excess-kick when the room report exceeds the cap, and
the stop condition (`elapsedMinutes` is the exact value of the JS float
division by `6e4`). -/
def manageCurrentSpace (opts : SpaceDecisionOptions) (room : RoomReport)
    (now : Nat) (approveOk : String → Bool) (s : SpaceState) : SpaceState :=
  if s.spaceId.isNone || !s.currentSpace then s
  else
    let numSpeakers := room.speakers.length
    let totalListeners := room.listeners
    let maxDur := opts.speakerMaxDurationMs.getD 240000
    let kept :=
      s.activeSpeakers.filter
        (fun sp => !((now : Int) - (sp.startTime : Int) > (maxDur : Int)))
    let s1 : SpaceState := { s with activeSpeakers := kept }
    let s2 := acceptSpeakersFromQueueIfNeeded opts approveOk now s1
    let s3 :=
      if numSpeakers > opts.maxSpeakers.getD 1 then
        kickExtraSpeakers opts room.speakers s2
      else s2
    let elapsedMinutes : ℚ := ((now : ℚ) - (s.startedAt.getD 0 : ℚ)) / 60000
    if elapsedMinutes > (opts.typicalDurationMinutes.getD 30 : ℚ)
        ∨ (numSpeakers = 0 ∧ totalListeners = 0 ∧ elapsedMinutes > 5) then
      stopSpace now s3
    else s3

/-- Source `TwitterSpaceClient.handleSpeakerRequest(req)` (lines 4118-4137): the
admission test compares the ROOM-REPORTED speaker count (`janusSpeakers`
from the scraper) with the cap; below the cap the request is accepted at
once, otherwise it is appended to the FIFO queue. -/
def handleSpeakerRequest (opts : SpaceDecisionOptions) (room : RoomReport)
    (approveOk : String → Bool) (now : Nat) (req : SpeakerRequest)
    (s : SpaceState) : SpaceState :=
  if s.spaceId.isNone || !s.currentSpace then s
  else
    let janusSpeakers := room.speakers
    if janusSpeakers.length < opts.maxSpeakers.getD 1 then
      acceptSpeaker approveOk now req s
    else
      { s with speakerQueue := s.speakerQueue ++ [req] }

/-! ## Helper lemmas -/

/-- Writing a key with `setA` and reading it back yields the written value. -/
theorem lookupD_setA_self {α : Type} (m : List (String × α)) (k : String) (v d : α) :
    lookupD (setA m k v) k d = v := by
  have hmap : ∀ m' : List (String × α), m'.any (fun p => p.1 == k) = true →
      lookupD (m'.map (fun p => if p.1 == k then (k, v) else p)) k d = v := by
    intro m' h
    induction m' with
    | nil => simp at h
    | cons p rest ih =>
      by_cases hp : p.1 == k
      · simp [lookupD, List.find?, hp]
      · have hrest : rest.any (fun q => q.1 == k) = true := by
          simp only [List.any_cons, hp, Bool.false_or] at h
          exact h
        simpa [lookupD, List.find?, hp] using ih hrest
  have happ : ∀ m' : List (String × α), m'.any (fun p => p.1 == k) = false →
      lookupD (m' ++ [(k, v)]) k d = v := by
    intro m' h
    induction m' with
    | nil => simp [lookupD, List.find?]
    | cons p rest ih =>
      have hp : (p.1 == k) = false := by
        simp only [List.any_cons, Bool.or_eq_false_iff] at h
        exact h.1
      have hrest : rest.any (fun q => q.1 == k) = false := by
        simp only [List.any_cons, Bool.or_eq_false_iff] at h
        exact h.2
      simpa [lookupD, List.find?, hp] using ih hrest
  unfold setA
  cases h : m.any (fun p => p.1 == k) with
  | true => simpa [h] using hmap m h
  | false => simpa [h] using happ m h

/-- The playback loop never touches the PCM capture buffers. -/
theorem ttsLoop_pcmBuffers (o : String → JobOutcome) (q : List String) :
    ∀ s : SttState, (ttsLoop o q s).1.pcmBuffers = s.pcmBuffers := by
  induction q with
  | nil => intro s; rfl
  | cons t rest ih =>
    intro s
    by_cases ht : t = ""
    · simpa [ttsLoop, ht] using ih _
    · cases ho : o t <;> simp [ttsLoop, ht, ho] <;> exact ih _

/-- Helper: `speakText` never touches the PCM capture buffers. -/
theorem speakText_pcmBuffers (o : String → JobOutcome) (text : String) (s : SttState) :
    (speakText o text s).pcmBuffers = s.pcmBuffers := by
  by_cases hs : s.isSpeaking <;>
    simp [speakText, processTtsQueue, hs, ttsLoop_pcmBuffers]

/-! ## Claims -/

/-- C4: whenever the busy flag (`isProcessingAudio`) is set, a new
endpointing flush (`processAudio`) returns without processing anything —
the state is unchanged, so nothing is queued — and new ingestion
(`onAudioData`) is silently rejected.  In the single-threaded cooperative
model this is exactly the mutual-exclusion guarantee: no execution can
enter the transcription-to-reply stage while another turn holds the flag. -/
theorem busy_excludes_flush_and_ingest (c : Collab) (u : String) (d : AudioFrame)
    (s : SttState) (h : s.isProcessingAudio = true) :
    processAudio c u s = s ∧ onAudioData d s = s := by
  constructor <;> simp [processAudio, onAudioData, h]

/-- Concrete instantiation of `busy_excludes_flush_and_ingest`. -/
def noCollab : Collab :=
  { transcribe := fun _ => .ok ""
    handleUserMessage := fun _ _ => .ok ""
    jobOutcome := fun _ => .ok }

def busyState : SttState :=
  { silenceThreshold := 50, pcmBuffers := [("u", [[1000]])], ttsQueue := []
    isSpeaking := false, isProcessingAudio := true, userSpeakingTimer := none
    volumeBuffers := [], ttsAbortController := none }

theorem busy_excludes_flush_and_ingest_witness :
    busyState.isProcessingAudio = true ∧
    processAudio noCollab "u" busyState = busyState ∧
    onAudioData ⟨"u", [1000]⟩ busyState = busyState :=
  ⟨rfl, busy_excludes_flush_and_ingest noCollab "u" ⟨"u", [1000]⟩ busyState rfl⟩

/-- C2: an invocation of `processAudio` that enters the turn (the busy
flag was clear) leaves the busy flag `false` on completion, for every
behaviour of the transcription and classification/generation
collaborators — including thrown errors, which the model's `Collab`
oracles produce as `Except.error` and which the embedded `catch`/`finally`
of `processAudio` absorbs.  That `processAudio` is a total function into
plain states (not `Except`) is the model's rendering of "never propagates
an exception to its caller". -/
theorem processAudio_releases_busy (c : Collab) (u : String) (s : SttState)
    (h : s.isProcessingAudio = false) :
    (processAudio c u s).isProcessingAudio = false := by
  simp [processAudio, h]

def idleState : SttState :=
  { silenceThreshold := 50, pcmBuffers := [("u", [[1000]])], ttsQueue := []
    isSpeaking := false, isProcessingAudio := false, userSpeakingTimer := some "u"
    volumeBuffers := [], ttsAbortController := none }

/-- A collaborator pair whose transcription throws. -/
def throwingCollab : Collab :=
  { transcribe := fun _ => .error "network"
    handleUserMessage := fun _ _ => .ok ""
    jobOutcome := fun _ => .ok }

theorem processAudio_releases_busy_witness :
    idleState.isProcessingAudio = false ∧
    (processAudio throwingCollab "u" idleState).isProcessingAudio = false :=
  ⟨rfl, processAudio_releases_busy throwingCollab "u" idleState rfl⟩

/-- C9: a flush that finds chunks clears the entire per-speaker buffer
map (`pcmBuffers.clear()`), so after `processAudio userId` every other
speaker's buffered, not-yet-endpointed audio is discarded too. -/
theorem processAudio_clears_all_buffers (c : Collab) (u : String) (s : SttState)
    (h : s.isProcessingAudio = false)
    (hc : lookupD s.pcmBuffers u [] ≠ []) :
    (processAudio c u s).pcmBuffers = [] := by
  simp only [processAudio, h, Bool.false_eq_true, if_false]
  unfold processAudioBody
  have hch : (lookupD ({ s with isProcessingAudio := true } : SttState).pcmBuffers u []).isEmpty = false := by
    simpa [List.isEmpty_iff] using hc
  simp only [hch, Bool.false_eq_true, if_false]
  split
  · rfl
  · split
    · rfl
    · split
      · rfl
      · split
        · rfl
        · simp [speakText_pcmBuffers]

/-- A state holding buffered audio for two speakers. -/
def twoSpeakerState : SttState :=
  { silenceThreshold := 50, pcmBuffers := [("u", [[1000]]), ("v", [[7]])]
    ttsQueue := [], isSpeaking := false, isProcessingAudio := false
    userSpeakingTimer := some "u", volumeBuffers := [], ttsAbortController := none }

theorem processAudio_clears_all_buffers_witness :
    twoSpeakerState.isProcessingAudio = false ∧
    lookupD twoSpeakerState.pcmBuffers "u" [] ≠ [] ∧
    (processAudio noCollab "u" twoSpeakerState).pcmBuffers = [] :=
  ⟨rfl, by decide,
    processAudio_clears_all_buffers noCollab "u" twoSpeakerState rfl (by decide)⟩

/-- A state in which the agent is currently speaking (playback active,
abort controller installed), with the default silence threshold. -/
def speakingState : SttState :=
  { silenceThreshold := 50, pcmBuffers := [], ttsQueue := ["queued"]
    isSpeaking := true, isProcessingAudio := false, userSpeakingTimer := none
    volumeBuffers := [], ttsAbortController := some false }

/-- C1 counterexample: with the agent speaking (`isSpeaking = true`), the
busy flag clear, and a frame whose peak amplitude (100) is at or above
the silence threshold (50) but far below the speaking threshold
(0.05·32768 ≈ 1638), the claim's clause (a) says the frame is NOT
appended; `onAudioData` appends it to the speaker's buffer anyway — the
speaking threshold never gates buffering, only barge-in detection. -/
theorem onAudioData_appends_while_speaking_counterexample :
    speakingState.isSpeaking = true ∧
    speakingState.isProcessingAudio = false ∧
    (maxAbsSample [0, 100] : ℚ) / 32768 < SPEAKING_THRESHOLD ∧
    ¬ maxAbsSample [0, 100] < speakingState.silenceThreshold ∧
    lookupD (onAudioData ⟨"u", [0, 100]⟩ speakingState).pcmBuffers "u" [] = [[0, 100]] := by
  refine ⟨rfl, rfl, ?_, by decide, ?_⟩
  · norm_num [maxAbsSample, SPEAKING_THRESHOLD]
  · unfold onAudioData
    norm_num [speakingState, maxAbsSample, avgVolume, SPEAKING_THRESHOLD,
      VOLUME_WINDOW_SIZE, lookupD, setA, List.find?, List.any]

/-- C1 (amended): `onAudioData(speakerId, samples)` appends the samples
to that speaker's buffer unless the pipeline's busy flag is set; every
frame whose peak amplitude is below the fixed silence threshold is
dropped entirely — not buffered and the state (hence the inactivity
timer) untouched; the agent-speaking state does NOT suppress buffering:
accepted frames are appended regardless of any speaking threshold, which
only drives barge-in cancellation. -/
theorem onAudioData_ingest_contract (d : AudioFrame) (s : SttState) :
    (s.isProcessingAudio = true → onAudioData d s = s) ∧
    (s.isProcessingAudio = false →
      maxAbsSample d.samples < s.silenceThreshold → onAudioData d s = s) ∧
    (s.isProcessingAudio = false →
      ¬ maxAbsSample d.samples < s.silenceThreshold →
      lookupD (onAudioData d s).pcmBuffers d.userId []
        = lookupD s.pcmBuffers d.userId [] ++ [d.samples]) := by
  refine ⟨fun hb => by simp [onAudioData, hb],
          fun hb hq => by simp [onAudioData, hb, hq], fun hb hq => ?_⟩
  unfold onAudioData
  simp only [hb, Bool.false_eq_true, if_false, if_neg hq]
  by_cases hsp : s.isSpeaking
  · simp only [hsp, Bool.not_true, Bool.false_eq_true, if_false]
    split <;> split <;> cases s.ttsAbortController <;> simp [lookupD_setA_self]
  · simp [hsp, lookupD_setA_self]

theorem onAudioData_ingest_contract_witness :
    idleState.isProcessingAudio = false ∧
    ¬ maxAbsSample [0, 100] < idleState.silenceThreshold ∧
    lookupD (onAudioData ⟨"w", [0, 100]⟩ idleState).pcmBuffers "w" []
      = lookupD idleState.pcmBuffers "w" [] ++ [[0, 100]] :=
  ⟨rfl, by decide,
    (onAudioData_ingest_contract ⟨"w", [0, 100]⟩ idleState).2.2 rfl (by decide)⟩

/-- C10 counterexample: a volume window holding the single entry `0`
(reachable: a frame whose first half is silent pushes normalized peak `0`)
has computed rolling average `0/100 = 0`, which EQUALS the true mean of
its entries instead of being strictly less. -/
theorem avgVolume_not_strictly_less_counterexample :
    [(0 : ℚ)].length < VOLUME_WINDOW_SIZE ∧
    ¬ avgVolume [(0 : ℚ)] < [(0 : ℚ)].sum / (([(0 : ℚ)].length : ℚ)) := by
  constructor
  · decide
  · norm_num [avgVolume, VOLUME_WINDOW_SIZE]

/-- C10 (amended): the barge-in rolling average divides the window sum by
the fixed capacity 100, not the current length; for a window of `k < 100`
entries the computed value is `sum/100`, which is strictly below the true
mean of the entries whenever the sum is positive (an all-zero window gives
equality); and the barge-in comparison `avgVolume > SPEAKING_THRESHOLD`
triggers exactly when the windowed sum exceeds `0.05 · 100`. -/
theorem avgVolume_divides_by_capacity (w : List ℚ)
    (hk : w.length < VOLUME_WINDOW_SIZE) :
    avgVolume w = w.sum / 100 ∧
    (0 < w.sum → avgVolume w < w.sum / (w.length : ℚ)) ∧
    (avgVolume w > SPEAKING_THRESHOLD ↔
      w.sum > SPEAKING_THRESHOLD * (VOLUME_WINDOW_SIZE : ℚ)) := by
  have hcap : ((VOLUME_WINDOW_SIZE : Nat) : ℚ) = 100 := by
    norm_num [VOLUME_WINDOW_SIZE]
  refine ⟨by rw [avgVolume, hcap], fun hsum => ?_, ?_⟩
  · have hne : w ≠ [] := by
      intro he
      rw [he] at hsum
      simp at hsum
    have hlen : 0 < w.length := List.length_pos.mpr hne
    have hlenq : (0 : ℚ) < (w.length : ℚ) := by exact_mod_cast hlen
    have hltq : (w.length : ℚ) < 100 := by
      have : w.length < 100 := by simpa [VOLUME_WINDOW_SIZE] using hk
      exact_mod_cast this
    rw [avgVolume, hcap]
    exact div_lt_div_of_pos_left hsum hlenq hltq
  · rw [avgVolume, hcap, gt_iff_lt, gt_iff_lt, SPEAKING_THRESHOLD]
    rw [div_lt_div_iff₀ (by norm_num) (by norm_num)]
    constructor <;> intro h <;> nlinarith

theorem avgVolume_divides_by_capacity_witness :
    [(1 : ℚ)/10].length < VOLUME_WINDOW_SIZE ∧
    (avgVolume [(1 : ℚ)/10] = ([(1 : ℚ)/10]).sum / 100 ∧
     (0 < ([(1 : ℚ)/10]).sum →
        avgVolume [(1 : ℚ)/10] < ([(1 : ℚ)/10]).sum / (([(1 : ℚ)/10]).length : ℚ)) ∧
     (avgVolume [(1 : ℚ)/10] > SPEAKING_THRESHOLD ↔
        ([(1 : ℚ)/10]).sum > SPEAKING_THRESHOLD * (VOLUME_WINDOW_SIZE : ℚ))) :=
  ⟨by decide, avgVolume_divides_by_capacity [(1 : ℚ)/10] (by decide)⟩

/-- The dequeue trace prepended to the remaining queue reconstructs the
initial queue: jobs are dequeued in strict FIFO order, never reordered or
requeued. -/
theorem ttsLoop_fifo (o : String → JobOutcome) (q : List String) :
    ∀ s : SttState, s.ttsQueue = q →
      (ttsLoop o q s).2 ++ (ttsLoop o q s).1.ttsQueue = q := by
  induction q with
  | nil => intro s h; simpa [ttsLoop] using h
  | cons t rest ih =>
    intro s h
    by_cases ht : t = ""
    · simpa [ttsLoop, ht] using ih { s with ttsQueue := rest } rfl
    · cases ho : o t
      · simpa [ttsLoop, ht, ho] using
          ih { s with ttsQueue := rest, ttsAbortController := none } rfl
      · simpa [ttsLoop, ht, ho] using
          ih { s with ttsQueue := rest, ttsAbortController := none } rfl
      · simp [ttsLoop, ht, ho]
      · simp [ttsLoop, ht, ho]

/-- When no queued job is cancelled, the loop drains the whole queue and
then (and only then) clears the speaking flag. -/
theorem ttsLoop_drains (o : String → JobOutcome) (q : List String)
    (hq : ∀ t ∈ q, o t ≠ .abortBefore ∧ o t ≠ .abortAfter) :
    ∀ s : SttState, s.ttsQueue = q →
      (ttsLoop o q s).1.ttsQueue = [] ∧ (ttsLoop o q s).1.isSpeaking = false := by
  induction q with
  | nil => intro s h; exact ⟨h, rfl⟩
  | cons t rest ih =>
    intro s h
    have hrest : ∀ t' ∈ rest, o t' ≠ .abortBefore ∧ o t' ≠ .abortAfter :=
      fun t' ht' => hq t' (List.mem_cons_of_mem t ht')
    have hhead := hq t (List.mem_cons_self t rest)
    by_cases ht : t = ""
    · simpa [ttsLoop, ht] using ih hrest { s with ttsQueue := rest } rfl
    · cases ho : o t
      · simpa [ttsLoop, ht, ho] using
          ih hrest { s with ttsQueue := rest, ttsAbortController := none } rfl
      · simpa [ttsLoop, ht, ho] using
          ih hrest { s with ttsQueue := rest, ttsAbortController := none } rfl
      · exact absurd ho hhead.1
      · exact absurd ho hhead.2

/-- A cancelled head job makes the loop return at once: the rest of the
queue stays queued and the speaking flag is already false (cleared by the
barge-in handler at abort time, not by the loop). -/
theorem ttsLoop_abort_head (o : String → JobOutcome) (t : String)
    (rest : List String) (s : SttState) (ht : t ≠ "")
    (ho : o t = .abortBefore ∨ o t = .abortAfter) :
    (ttsLoop o (t :: rest) s).1.ttsQueue = rest ∧
    (ttsLoop o (t :: rest) s).1.isSpeaking = false := by
  rcases ho with ho | ho <;> simp [ttsLoop, ht, ho]

/-- The outcome oracle that cancels job "a" during streaming. -/
def abortingOutcome : String → JobOutcome :=
  fun t => if t = "a" then .abortAfter else .ok

def twoJobState : SttState :=
  { silenceThreshold := 50, pcmBuffers := [], ttsQueue := ["a", "b"]
    isSpeaking := true, isProcessingAudio := false, userSpeakingTimer := none
    volumeBuffers := [], ttsAbortController := none }

/-- C3 counterexample: with two queued jobs and the first cancelled
mid-stream, `processTtsQueue` returns immediately — job "b" is never
processed (the trace is `["a"]`) and stays queued — while the speaking
flag is already false with a non-empty queue, refuting both "the loop
proceeds to the next queued job" after a cancellation and "the flag is
cleared when (and only when) the queue has emptied". -/
theorem processTtsQueue_abort_counterexample :
    (processTtsQueue abortingOutcome twoJobState).ttsQueue = ["b"] ∧
    (processTtsQueue abortingOutcome twoJobState).isSpeaking = false ∧
    processTtsTrace abortingOutcome twoJobState = ["a"] := by
  refine ⟨?_, ?_, ?_⟩ <;> rfl

/-- C3 (amended): the playback loop dequeues jobs in strict FIFO order
(the processed trace followed by the remaining queue is the original
queue); when no job is cancelled the loop drains the queue — proceeding
to the next job even after a job error — and clears the speaking flag
exactly when the queue empties; but a cancelled job makes the loop return
at once, leaving the remaining jobs queued, with the speaking flag
already cleared eagerly by the barge-in handler. -/
theorem processTtsQueue_fifo_contract (o : String → JobOutcome) (s : SttState) :
    (processTtsTrace o s ++ (processTtsQueue o s).ttsQueue = s.ttsQueue) ∧
    ((∀ t ∈ s.ttsQueue, o t ≠ .abortBefore ∧ o t ≠ .abortAfter) →
      (processTtsQueue o s).ttsQueue = [] ∧
      (processTtsQueue o s).isSpeaking = false) ∧
    (∀ t rest, s.ttsQueue = t :: rest → t ≠ "" →
      (o t = .abortBefore ∨ o t = .abortAfter) →
      (processTtsQueue o s).ttsQueue = rest ∧
      (processTtsQueue o s).isSpeaking = false) := by
  refine ⟨ttsLoop_fifo o s.ttsQueue s rfl,
          fun h => ttsLoop_drains o s.ttsQueue h s rfl, ?_⟩
  intro t rest hqeq ht ho
  simp only [processTtsQueue, hqeq]
  exact ttsLoop_abort_head o t rest s ht ho

def okOutcome : String → JobOutcome := fun _ => .ok

def oneJobState : SttState :=
  { silenceThreshold := 50, pcmBuffers := [], ttsQueue := ["x"]
    isSpeaking := true, isProcessingAudio := false, userSpeakingTimer := none
    volumeBuffers := [], ttsAbortController := none }

theorem processTtsQueue_fifo_contract_witness :
    (processTtsTrace okOutcome oneJobState
        ++ (processTtsQueue okOutcome oneJobState).ttsQueue
      = oneJobState.ttsQueue) ∧
    (processTtsQueue okOutcome oneJobState).ttsQueue = [] ∧
    (processTtsQueue okOutcome oneJobState).isSpeaking = false := by
  have h := processTtsQueue_fifo_contract okOutcome oneJobState
  exact ⟨h.1, h.2.1 (by decide)⟩

/-! ## C5: frame streamer theorems -/

/-- A never-raised cancellation signal. -/
def noAbort : Nat → Bool := fun _ => false

/-- Frame count of the uncancelled push loop: one frame per full
`FRAME_SIZE` step that fits. -/
theorem streamLoop_noabort_count (samples : List Int) (FS : Nat) (hFS : 0 < FS) :
    ∀ n offset k, samples.length - offset ≤ n →
      (streamLoop samples FS noAbort offset k).length
        = (samples.length - offset) / FS := by
  intro n
  induction n with
  | zero =>
    intro offset k hle
    rw [streamLoop]
    have hguard : ¬ (0 < FS ∧ offset + FS ≤ samples.length) := by omega
    have h0 : samples.length - offset = 0 := by omega
    simp [hguard, h0]
  | succ n ih =>
    intro offset k hle
    rw [streamLoop]
    by_cases hguard : 0 < FS ∧ offset + FS ≤ samples.length
    · rw [dif_pos hguard]
      simp only [noAbort, Bool.false_eq_true, if_false, List.length_cons]
      rw [ih (offset + FS) (k + 1) (by omega)]
      have h1 : FS ≤ samples.length - offset := by omega
      have h2 : samples.length - (offset + FS) = samples.length - offset - FS := by
        omega
      rw [h2, Nat.div_eq_sub_div hFS h1]
    · rw [dif_neg hguard]
      have : samples.length - offset < FS := by omega
      simp [Nat.div_eq_of_lt this]

/-- Every pushed frame is exactly `FRAME_SIZE` samples: no partial final
frame is ever emitted. -/
theorem streamLoop_frame_sizes (samples : List Int) (FS : Nat) (ab : Nat → Bool) :
    ∀ n offset k, samples.length - offset ≤ n →
      ∀ f ∈ streamLoop samples FS ab offset k, f.length = FS := by
  intro n
  induction n with
  | zero =>
    intro offset k hle f hf
    rw [streamLoop] at hf
    have hguard : ¬ (0 < FS ∧ offset + FS ≤ samples.length) := by omega
    rw [dif_neg hguard] at hf
    simp at hf
  | succ n ih =>
    intro offset k hle f hf
    rw [streamLoop] at hf
    by_cases hguard : 0 < FS ∧ offset + FS ≤ samples.length
    · rw [dif_pos hguard] at hf
      by_cases habk : ab k = true
      · simp [habk] at hf
      · simp only [habk, Bool.false_eq_true, if_false, List.mem_cons] at hf
        rcases hf with hf | hf
        · subst hf
          simp only [List.length_take, List.length_drop]
          omega
        · exact ih (offset + FS) (k + 1) (by omega) f hf
    · rw [dif_neg hguard] at hf
      simp at hf

/-- The cancellation token is checked before every push: once it reads
`true` at check `kstop`, no more than `kstop` frames (counted from check
index `k0`) are ever pushed. -/
theorem streamLoop_abort_bound (samples : List Int) (FS : Nat) (ab : Nat → Bool) :
    ∀ n offset k0 kstop, samples.length - offset ≤ n → k0 ≤ kstop →
      ab kstop = true →
      (streamLoop samples FS ab offset k0).length ≤ kstop - k0 := by
  intro n
  induction n with
  | zero =>
    intro offset k0 kstop hle _ _
    rw [streamLoop]
    have hguard : ¬ (0 < FS ∧ offset + FS ≤ samples.length) := by omega
    simp [hguard]
  | succ n ih =>
    intro offset k0 kstop hle hk hab
    rw [streamLoop]
    by_cases hguard : 0 < FS ∧ offset + FS ≤ samples.length
    · rw [dif_pos hguard]
      by_cases habk : ab k0 = true
      · simp [habk]
      · have hne : k0 ≠ kstop := by
          intro he
          rw [he] at habk
          exact habk hab
        have hrec := ih (offset + FS) (k0 + 1) kstop (by omega) (by omega) hab
        simp only [habk, Bool.false_eq_true, if_false, List.length_cons]
        omega
    · rw [dif_neg hguard]
      simp

/-- C5: absent cancellation, `streamToJanus` pushes exactly
`⌊L / frameSize⌋` frames of `frameSize = ⌊sampleRate · 0.01⌋` samples
each (10 ms per frame), every pushed frame has the full fixed size (no
final partial frame), and the cancellation token is checked before every
push, so an abort observed at check `k` bounds the pushed frames by `k`.
(The source loop diverges for `sampleRate < 100`, where `frameSize = 0`;
hence the hypothesis.) -/
theorem streamToJanus_frames (samples : List Int) (sampleRate : Nat)
    (h : 100 ≤ sampleRate) :
    (streamToJanus samples sampleRate noAbort).length
        = samples.length / (sampleRate / 100) ∧
    (∀ f ∈ streamToJanus samples sampleRate noAbort,
        f.length = sampleRate / 100) ∧
    (∀ ab : Nat → Bool, ∀ k, ab k = true →
        (streamToJanus samples sampleRate ab).length ≤ k) := by
  have hFS : 0 < sampleRate / 100 := Nat.div_pos h (by norm_num)
  refine ⟨?_, ?_, ?_⟩
  · simpa [streamToJanus] using
      streamLoop_noabort_count samples _ hFS samples.length 0 0 (by omega)
  · intro f hf
    exact streamLoop_frame_sizes samples _ noAbort samples.length 0 0
      (by omega) f hf
  · intro ab k hab
    simpa [streamToJanus] using
      streamLoop_abort_bound samples _ ab samples.length 0 0 k (by omega)
        (by omega) hab

/-- A token that reads aborted from check index 1 on. -/
def abortFromOne : Nat → Bool := fun k => Nat.ble 1 k

theorem streamToJanus_frames_witness :
    100 ≤ 200 ∧
    (streamToJanus [1, 2, 3, 4, 5] 200 noAbort).length
      = ([1, 2, 3, 4, 5] : List Int).length / (200 / 100) ∧
    (streamToJanus [1, 2, 3, 4, 5] 200 abortFromOne).length ≤ 1 := by
  have h := streamToJanus_frames [1, 2, 3, 4, 5] 200 (by norm_num)
  exact ⟨by norm_num, h.1, h.2.2 abortFromOne 1 rfl⟩

/-! ## C6: canonical container round-trip -/

/-- The 44 header bytes the `DataView` writes, in offset order, for a
data payload of `n` samples at rate `r`. -/
def wavHeaderBytes (n r : Nat) : List Nat :=
  [82, 73, 70, 70,
   (36 + n * 2) % 256, (36 + n * 2) / 256 % 256,
   (36 + n * 2) / 65536 % 256, (36 + n * 2) / 16777216 % 256,
   87, 65, 86, 69, 102, 109, 116, 32,
   16, 0, 0, 0, 1, 0, 1, 0,
   r % 256, r / 256 % 256, r / 65536 % 256, r / 16777216 % 256,
   r * 2 % 256, r * 2 / 256 % 256, r * 2 / 65536 % 256, r * 2 / 16777216 % 256,
   2, 0, 16, 0, 100, 97, 116, 97,
   n * 2 % 256, n * 2 / 256 % 256, n * 2 / 65536 % 256, n * 2 / 16777216 % 256]

/-- The container is its 44-byte header followed by the encoded samples. -/
theorem convert_split (pcm : List Int) (r : Nat) :
    convertPcmToWavInMemory pcm r
      = wavHeaderBytes pcm.length r ++ pcm.flatMap encodeInt16LE := by
  have hR : writeStringBytes "RIFF" = [82, 73, 70, 70] := rfl
  have hW : writeStringBytes "WAVE" = [87, 65, 86, 69] := rfl
  have hF : writeStringBytes "fmt " = [102, 109, 116, 32] := rfl
  have hD : writeStringBytes "data" = [100, 97, 116, 97] := rfl
  simp [convertPcmToWavInMemory, wavHeaderBytes, hR, hW, hF, hD,
    encodeUInt32LE, encodeUInt16LE]

/-- Each sample encodes to two bytes. -/
theorem flatMap_encodeInt16LE_length (pcm : List Int) :
    (pcm.flatMap encodeInt16LE).length = 2 * pcm.length := by
  induction pcm with
  | nil => rfl
  | cons v rest ih =>
    simp only [List.flatMap_cons, List.length_append, ih, encodeInt16LE,
      List.length_cons, List.length_nil]
    omega

/-- Bytes past the header index into the encoded sample payload. -/
theorem byteAt_data (pcm : List Int) (r n : Nat) :
    byteAt (convertPcmToWavInMemory pcm r) (44 + n)
      = byteAt (pcm.flatMap encodeInt16LE) n := by
  have hlen : (wavHeaderBytes pcm.length r).length = 44 := rfl
  rw [byteAt, byteAt, convert_split,
      List.getD_append_right _ _ _ _ (by rw [hlen]; omega), hlen]
  congr 1
  omega

/-- The two bytes of the `i`-th encoded sample. -/
theorem flatMap_encodeInt16LE_byteAt (pcm : List Int) :
    ∀ i, i < pcm.length →
      byteAt (pcm.flatMap encodeInt16LE) (2 * i)
          = (pcm.getD i 0 % 65536).toNat % 256 ∧
      byteAt (pcm.flatMap encodeInt16LE) (2 * i + 1)
          = (pcm.getD i 0 % 65536).toNat / 256 := by
  induction pcm with
  | nil => intro i hi; simp at hi
  | cons v rest ih =>
    intro i hi
    cases i with
    | zero =>
      constructor <;> simp [List.flatMap_cons, encodeInt16LE, byteAt]
    | succ j =>
      have h0 : 2 * (j + 1) = 2 * j + 1 + 1 := by ring
      have h1 : 2 * (j + 1) + 1 = 2 * j + 1 + 1 + 1 := by ring
      have hrec := ih j (by simpa using hi)
      constructor
      · rw [h0]
        simpa [List.flatMap_cons, encodeInt16LE, byteAt] using hrec.1
      · rw [h1]
        simpa [List.flatMap_cons, encodeInt16LE, byteAt] using hrec.2

/-- C6: for `N` 16-bit samples at any representable sample rate, the
container is `44 + 2N` bytes; its header decodes to the same sample rate,
channel count 1, PCM format code 1, 16-bit depth and data size `2N`; and
the data bytes decode back to the original samples (round-trip). -/
theorem convertPcmToWav_roundtrip (pcmData : List Int) (sampleRate : Nat)
    (hr : sampleRate < 4294967296)
    (hn : 36 + 2 * pcmData.length < 4294967296)
    (hs : ∀ v ∈ pcmData, -32768 ≤ v ∧ v < 32768) :
    (convertPcmToWavInMemory pcmData sampleRate).length = 44 + 2 * pcmData.length ∧
    readUInt32LE (convertPcmToWavInMemory pcmData sampleRate) 24 = sampleRate ∧
    readUInt16LE (convertPcmToWavInMemory pcmData sampleRate) 22 = 1 ∧
    readUInt16LE (convertPcmToWavInMemory pcmData sampleRate) 20 = 1 ∧
    readUInt16LE (convertPcmToWavInMemory pcmData sampleRate) 34 = 16 ∧
    readUInt32LE (convertPcmToWavInMemory pcmData sampleRate) 40 = 2 * pcmData.length ∧
    ∀ i, i < pcmData.length →
      readInt16LE (convertPcmToWavInMemory pcmData sampleRate) (44 + 2 * i)
        = pcmData.getD i 0 := by
  refine ⟨?_, ?_, ?_, ?_, ?_, ?_, ?_⟩
  · rw [convert_split, List.length_append, flatMap_encodeInt16LE_length]
    have hlen : (wavHeaderBytes pcmData.length sampleRate).length = 44 := rfl
    omega
  · rw [convert_split]
    show sampleRate % 256 + 256 * (sampleRate / 256 % 256)
        + 65536 * (sampleRate / 65536 % 256)
        + 16777216 * (sampleRate / 16777216 % 256) = sampleRate
    omega
  · rw [convert_split]; rfl
  · rw [convert_split]; rfl
  · rw [convert_split]; rfl
  · rw [convert_split]
    show pcmData.length * 2 % 256 + 256 * (pcmData.length * 2 / 256 % 256)
        + 65536 * (pcmData.length * 2 / 65536 % 256)
        + 16777216 * (pcmData.length * 2 / 16777216 % 256) = 2 * pcmData.length
    omega
  · intro i hi
    have hv : pcmData.getD i 0 ∈ pcmData := by
      rw [List.getD_eq_getElem _ _ hi]
      exact List.getElem_mem hi
    have hb := hs _ hv
    have hbytes := flatMap_encodeInt16LE_byteAt pcmData i hi
    rw [readInt16LE, readUInt16LE, show 44 + 2 * i + 1 = 44 + (2 * i + 1) by omega,
        byteAt_data, byteAt_data, hbytes.1, hbytes.2]
    have ht : ((pcmData.getD i 0 % 65536).toNat) < 65536 := by omega
    split <;> omega

theorem convertPcmToWav_roundtrip_witness :
    (48000 < 4294967296) ∧
    (convertPcmToWavInMemory [(1 : Int), -1] 48000).length = 48 ∧
    readUInt32LE (convertPcmToWavInMemory [(1 : Int), -1] 48000) 24 = 48000 ∧
    readInt16LE (convertPcmToWavInMemory [(1 : Int), -1] 48000) (44 + 2 * 1) = -1 := by
  have h := convertPcmToWav_roundtrip [(1 : Int), -1] 48000 (by norm_num)
    (by norm_num) (by decide)
  refine ⟨by norm_num, ?_, h.2.1, ?_⟩
  · have := h.1
    simpa using this
  · have := h.2.2.2.2.2.2 1 (by norm_num)
    simpa using this

/-! ## C7/C8: admission control -/

/-- Helper: `acceptSpeaker` grows the active list by at most one entry. -/
theorem acceptSpeaker_length_le (approveOk : String → Bool) (now : Nat)
    (req : SpeakerRequest) (s : SpaceState) :
    (acceptSpeaker approveOk now req s).activeSpeakers.length
      ≤ s.activeSpeakers.length + 1 := by
  unfold acceptSpeaker
  split
  · omega
  · split
    · simp
    · omega

/-- The queue-admission loop admits only while strictly below the cap,
so it preserves the cap bound. -/
theorem acceptQueueGo_le (ms : Nat) (approveOk : String → Bool) (now : Nat) :
    ∀ (q : List SpeakerRequest) (s : SpaceState),
      s.activeSpeakers.length ≤ ms →
      (acceptQueueGo ms approveOk now q s).activeSpeakers.length ≤ ms := by
  intro q
  induction q with
  | nil => intro s h; exact h
  | cons req rest ih =>
    intro s h
    simp only [acceptQueueGo]
    by_cases hlt : s.activeSpeakers.length < ms
    · rw [if_pos hlt]
      apply ih
      have := acceptSpeaker_length_le approveOk now req
        { s with speakerQueue := rest }
      simp only at this
      omega
    · rw [if_neg hlt]
      exact h

theorem acceptFromQueue_le (opts : SpaceDecisionOptions)
    (approveOk : String → Bool) (now : Nat) (s : SpaceState)
    (h : s.activeSpeakers.length ≤ opts.maxSpeakers.getD 1) :
    (acceptSpeakersFromQueueIfNeeded opts approveOk now s).activeSpeakers.length
      ≤ opts.maxSpeakers.getD 1 :=
  acceptQueueGo_le _ _ _ _ _ h

/-- The excess-kick fold only removes entries. -/
theorem kickExtraSpeakers_length_le (opts : SpaceDecisionOptions)
    (speakers : List RoomSpeaker) (s : SpaceState) :
    (kickExtraSpeakers opts speakers s).activeSpeakers.length
      ≤ s.activeSpeakers.length := by
  unfold kickExtraSpeakers
  split
  · exact le_rfl
  · simp only
    generalize s.activeSpeakers = l
    induction speakers.drop (opts.maxSpeakers.getD 1) generalizing l with
    | nil => exact le_rfl
    | cons sp rest ih =>
      exact le_trans (ih _) (List.Sublist.length_le (List.eraseP_sublist l))

theorem stopSpace_length_le (now : Nat) (s : SpaceState) :
    (stopSpace now s).activeSpeakers.length ≤ s.activeSpeakers.length := by
  unfold stopSpace
  split
  · exact le_rfl
  · simp

/-- A completed management tick preserves the cap bound on the manager's
own active-speaker list. -/
theorem manageCurrentSpace_preserves_cap (opts : SpaceDecisionOptions)
    (room : RoomReport) (now : Nat) (approveOk : String → Bool) (s : SpaceState)
    (h : s.activeSpeakers.length ≤ opts.maxSpeakers.getD 1) :
    (manageCurrentSpace opts room now approveOk s).activeSpeakers.length
      ≤ opts.maxSpeakers.getD 1 := by
  simp only [manageCurrentSpace]
  split
  · exact h
  · have hacc : ∀ kept : List SpeakerInfo,
        kept.length ≤ opts.maxSpeakers.getD 1 →
        (acceptSpeakersFromQueueIfNeeded opts approveOk now
          { s with activeSpeakers := kept }).activeSpeakers.length
          ≤ opts.maxSpeakers.getD 1 :=
      fun kept hk => acceptFromQueue_le opts approveOk now _ hk
    split <;> split
    · exact le_trans (stopSpace_length_le _ _)
        (le_trans (kickExtraSpeakers_length_le _ _ _)
          (hacc _ (le_trans (List.length_filter_le _ _) h)))
    · exact le_trans (stopSpace_length_le _ _)
        (hacc _ (le_trans (List.length_filter_le _ _) h))
    · exact le_trans (kickExtraSpeakers_length_le _ _ _)
        (hacc _ (le_trans (List.length_filter_le _ _) h))
    · exact hacc _ (le_trans (List.length_filter_le _ _) h)

/-- C7 (amended): a completed tick PRESERVES the cap bound — if the
manager's active-speaker count is at most `maxSpeakers` before the tick
it stays so after — and an incoming speaker request is accepted
immediately when the ROOM-REPORTED speaker count (not the manager's own
active count) is below the cap, and otherwise appended to the FIFO
admission queue.  (Because both the admission test and the excess-kick
trigger read the room report, a stale report can push the manager's own
active set above the cap, and a tick then need not restore the bound —
see the counterexample.) -/
theorem admission_cap_contract (opts : SpaceDecisionOptions) (room : RoomReport)
    (now : Nat) (approveOk : String → Bool) (req : SpeakerRequest) (s : SpaceState)
    (h : s.activeSpeakers.length ≤ opts.maxSpeakers.getD 1) :
    ((manageCurrentSpace opts room now approveOk s).activeSpeakers.length
        ≤ opts.maxSpeakers.getD 1) ∧
    (s.spaceId.isNone = false → s.currentSpace = true →
      (room.speakers.length < opts.maxSpeakers.getD 1 →
        handleSpeakerRequest opts room approveOk now req s
          = acceptSpeaker approveOk now req s) ∧
      (¬ room.speakers.length < opts.maxSpeakers.getD 1 →
        handleSpeakerRequest opts room approveOk now req s
          = { s with speakerQueue := s.speakerQueue ++ [req] })) := by
  refine ⟨manageCurrentSpace_preserves_cap opts room now approveOk s h,
          fun h1 h2 => ⟨fun h3 => ?_, fun h3 => ?_⟩⟩
  · simp [handleSpeakerRequest, h1, h2, h3]
  · simp [handleSpeakerRequest, h1, h2, h3]

/-! Concrete sessions for the admission-control claims. -/

def allOk : String → Bool := fun _ => true

def opts1 : SpaceDecisionOptions :=
  { maxSpeakers := some 1, speakerMaxDurationMs := some 240000
    typicalDurationMinutes := some 30 }

def emptyRoom : RoomReport := { speakers := [], listeners := 0 }

def roomA : RoomReport := { speakers := [{ user_id := "a" }], listeners := 0 }

def reqA : SpeakerRequest := { userId := "a", sessionUUID := "sa", username := "ua" }

def reqB : SpeakerRequest := { userId := "b", sessionUUID := "sb", username := "ub" }

def liveState : SpaceState :=
  { spaceId := some "sp", currentSpace := true, isSpaceRunning := true
    startedAt := some 0, lastSpaceEndedAt := none
    activeSpeakers := [], speakerQueue := [] }

/-- The session state after both requests were admitted against stale
(empty) room reports. -/
def stateAB : SpaceState :=
  { spaceId := some "sp", currentSpace := true, isSpaceRunning := true
    startedAt := some 0, lastSpaceEndedAt := none
    activeSpeakers :=
      [{ userId := "a", sessionUUID := "sa", username := "ua", startTime := 0 },
       { userId := "b", sessionUUID := "sb", username := "ub", startTime := 0 }]
    speakerQueue := [] }

/-- C7 counterexample: with cap 1, two speaker requests each admitted
while the scraper's room report was stale (empty), the manager's active
set holds 2 entries; the next tick — whose room report shows only one
speaker, so the excess-kick never fires — completes with the active set
still at 2 > 1, violating "size at most maxSpeakers after every
completed tick". -/
theorem admission_cap_violation_counterexample :
    opts1.maxSpeakers.getD 1 = 1 ∧
    handleSpeakerRequest opts1 emptyRoom allOk 0 reqB
        (handleSpeakerRequest opts1 emptyRoom allOk 0 reqA liveState) = stateAB ∧
    (manageCurrentSpace opts1 roomA 0 allOk stateAB).activeSpeakers.length = 2 := by
  refine ⟨rfl, rfl, ?_⟩
  norm_num [manageCurrentSpace, acceptSpeakersFromQueueIfNeeded, acceptQueueGo,
    stopSpace, opts1, roomA, stateAB]

def stateA : SpaceState :=
  { spaceId := some "sp", currentSpace := true, isSpaceRunning := true
    startedAt := some 0, lastSpaceEndedAt := none
    activeSpeakers :=
      [{ userId := "a", sessionUUID := "sa", username := "ua", startTime := 0 }]
    speakerQueue := [] }

theorem admission_cap_contract_witness :
    stateA.activeSpeakers.length ≤ opts1.maxSpeakers.getD 1 ∧
    (manageCurrentSpace opts1 roomA 0 allOk stateA).activeSpeakers.length
      ≤ opts1.maxSpeakers.getD 1 ∧
    handleSpeakerRequest opts1 roomA allOk 0 reqB stateA
      = { stateA with speakerQueue := stateA.speakerQueue ++ [reqB] } := by
  have h := admission_cap_contract opts1 roomA 0 allOk reqB stateA (by decide)
  exact ⟨by decide, h.1, (h.2 (by decide) (by decide)).2 (by decide)⟩

/-- Erasing, speaker after speaker, the room entries matching the suffix
of a manager list whose ids are duplicate-free removes exactly that
suffix, keeping the prefix. -/
theorem foldl_eraseP_room (post : List SpeakerInfo) :
    ∀ (pre : List SpeakerInfo) (extras : List RoomSpeaker),
      extras.map (fun x => x.user_id) = post.map (fun x => x.userId) →
      ((pre ++ post).map (fun x => x.userId)).Nodup →
      extras.foldl
          (fun acc sp => acc.eraseP (fun z => z.userId == sp.user_id)) (pre ++ post)
        = pre := by
  induction post with
  | nil =>
    intro pre extras hex _
    have : extras = [] := by
      cases extras with
      | nil => rfl
      | cons e erest => simp at hex
    subst this
    simp
  | cons x rest ih =>
    intro pre extras hex hnd
    cases extras with
    | nil => simp at hex
    | cons e erest =>
      simp only [List.map_cons, List.cons.injEq] at hex
      rw [List.map_append] at hnd
      have hdis := (List.nodup_append.mp hnd).2.2
      have hpre : ∀ y ∈ pre, (y.userId == e.user_id) = false := by
        intro y hy
        rw [beq_eq_false_iff_ne]
        intro heq
        exact hdis (List.mem_map_of_mem _ hy) (by simp [heq, hex.1])
      have hx : x.userId == e.user_id := by simp [hex.1]
      have hcons : List.eraseP (fun z : SpeakerInfo => z.userId == e.user_id)
          (x :: rest) = rest := by
        simp [List.eraseP_cons, hx]
      simp only [List.foldl_cons]
      rw [List.eraseP_append_right _ (by intro y hy; simp [hpre y hy]), hcons]
      apply ih pre erest hex.2
      rw [List.map_append]
      refine List.Nodup.sublist ?_ hnd
      exact List.Sublist.append_left (List.sublist_cons_self _ _) _

/-- C8 (amended): when the manager's bookkeeping matches the room report
(same ids in the same order, no duplicates), `kickExtraSpeakers` evicts
exactly the excess beyond the cap — but it removes the speakers at
positions `≥ cap` of the room list, i.e. (in admission order) the NEWEST
listed ones, retaining the first `cap` (the oldest admitted). -/
theorem kickExtraSpeakers_keeps_first (opts : SpaceDecisionOptions)
    (speakers : List RoomSpeaker) (s : SpaceState)
    (hc : s.currentSpace = true)
    (hids : speakers.map (fun x => x.user_id)
      = s.activeSpeakers.map (fun x => x.userId))
    (hnd : (s.activeSpeakers.map (fun x => x.userId)).Nodup) :
    (kickExtraSpeakers opts speakers s).activeSpeakers
      = s.activeSpeakers.take (opts.maxSpeakers.getD 1) ∧
    (kickExtraSpeakers opts speakers s).activeSpeakers.length
      = min (opts.maxSpeakers.getD 1) s.activeSpeakers.length := by
  have hmain : (kickExtraSpeakers opts speakers s).activeSpeakers
      = s.activeSpeakers.take (opts.maxSpeakers.getD 1) := by
    unfold kickExtraSpeakers
    rw [if_neg (by simp [hc])]
    simp only
    have hsplit := List.take_append_drop (opts.maxSpeakers.getD 1) s.activeSpeakers
    conv =>
      lhs
      rw [← hsplit]
    apply foldl_eraseP_room
    · simp only [List.map_drop, hids]
    · rw [hsplit]
      exact hnd
  exact ⟨hmain, by rw [hmain, List.length_take]⟩

/-- The room report listing both speakers, in admission order. -/
def roomAB : RoomReport :=
  { speakers := [{ user_id := "a" }, { user_id := "b" }], listeners := 0 }

/-- C8 counterexample: with cap 1 and room list `[a, b]` (a admitted
first, hence oldest), `kickExtraSpeakers` removes `b` — the newest — and
keeps the oldest-admitted `a`, refuting "removing the oldest-admitted
speakers first". -/
theorem kickExtraSpeakers_removes_newest_counterexample :
    opts1.maxSpeakers.getD 1 = 1 ∧
    stateAB.activeSpeakers.map (fun x => x.userId) = ["a", "b"] ∧
    (kickExtraSpeakers opts1 roomAB.speakers stateAB).activeSpeakers.map
        (fun x => x.userId) = ["a"] := by
  refine ⟨rfl, rfl, ?_⟩
  decide

theorem kickExtraSpeakers_keeps_first_witness :
    stateAB.currentSpace = true ∧
    (kickExtraSpeakers opts1 roomAB.speakers stateAB).activeSpeakers
      = stateAB.activeSpeakers.take (opts1.maxSpeakers.getD 1) ∧
    (kickExtraSpeakers opts1 roomAB.speakers stateAB).activeSpeakers.length
      = min (opts1.maxSpeakers.getD 1) stateAB.activeSpeakers.length := by
  have h := kickExtraSpeakers_keeps_first opts1 roomAB.speakers stateAB rfl
    (by decide) (by decide)
  exact ⟨rfl, h.1, h.2⟩

end ClientTwitter
